import Mathlib

/-!
Verification of the BLE car controller (`src/arduino_car_code.c`).

The sketch drains serial bytes into a string buffer `G_Bluetooth_value`,
and once the buffer is non-empty parses it as a command frame and drives
two motor channels (direction pin 2 / PWM pin 5 for the left motor,
direction pin 4 / PWM pin 6 for the right motor), then clears the buffer.

Modelling choices:
- a frame is a `List Char` (the Arduino `String` contents);
- `BLE_Change_SPEED` is modelled as an unbounded `Int`; the speed domain
  is 0-100 so no machine-width overflow is exercised by the protocol;
- PWM duty values are modelled as `ℚ`, recording the exact value of the
  `float motorSpeed` expression passed to `analogWrite`;
- Arduino `String.charAt` returns the NUL character `'\x00'` when the
  index is out of range (`String::operator[]` returns 0 there);
- Arduino `String.toInt` is C `atol`: skip whitespace, optional sign,
  then a maximal run of decimal digits (0 when no digits follow).
-/

/-- A digital pin level, as written by `digitalWrite`. -/
inductive Level
  | LOW
  | HIGH

/-- The outputs of the two motor channels: direction pin 2 and PWM pin 5
(left), direction pin 4 and PWM pin 6 (right). -/
structure Channels where
  leftDir : Level
  leftDuty : ℚ
  rightDir : Level
  rightDuty : ℚ

/-- The controller state: the command buffer `G_Bluetooth_value`, the
persisted target speed `BLE_Change_SPEED`, and the channel outputs. -/
structure CarState where
  buffer : List Char
  speed : Int
  ch : Channels

/-- `String.charAt` of the Arduino core: the character at index `i`, or
the NUL character when `i` is out of range. -/
def charAt (s : List Char) (i : Nat) : Char :=
  s.getD i (Char.ofNat 0)

/-- Arduino `isDigit` (C `isdigit`): true exactly on `'0'-'9'`. -/
def isDigit (c : Char) : Bool :=
  decide ('0' ≤ c) && decide (c ≤ '9')

/-- C `isspace`, used by `atol` before the digits. -/
def isSpace (c : Char) : Bool :=
  c = ' ' || c = '\t' || c = '\n' || c = '\x0b' || c = '\x0c' || c = '\r'

/-- The numeric value of a digit character, as computed by `atol`. -/
def digitVal (c : Char) : Int :=
  (c.toNat : Int) - 48

/-- The digit-consuming loop of `atol`: fold decimal digits into the
accumulator, stopping at the first non-digit character. -/
def readDigits : List Char → Int → Int
  | [], acc => acc
  | c :: cs, acc => if isDigit c then readDigits cs (acc * 10 + digitVal c) else acc

/-- Arduino `String.toInt` (C `atol`): skip leading whitespace, consume an
optional sign, then a maximal leading run of decimal digits. -/
def toInt (s : List Char) : Int :=
  match s.dropWhile isSpace with
  | '-' :: cs => - readDigits cs 0
  | '+' :: cs => readDigits cs 0
  | cs => readDigits cs 0

/-- Arduino `String.substring a b`: the characters at indices
`a, a+1, ..., b-1`. -/
def substring (s : List Char) (a b : Nat) : List Char :=
  (s.take b).drop a

/-- Lines 29-37 of `loop`: split a sentinel frame into the (possibly
updated) target speed and the action character `cmd`.  When the length
exceeds 2 and the character at index 1 is a digit, the speed becomes
`toInt` of the substring from index 1 to the last character (exclusive)
and `cmd` is the last character; otherwise the speed is kept and `cmd` is
the character at index 1. -/
def parseFrame (s : List Char) (speed : Int) : Int × Char :=
  if 2 < s.length ∧ isDigit (charAt s 1) then
    (toInt (substring s 1 (s.length - 1)), charAt s (s.length - 1))
  else
    (speed, charAt s 1)

/-- The stop output written by the `default` case and by the non-sentinel
branch: pin 2 LOW, pin 5 duty 0, pin 4 HIGH, pin 6 duty 0. -/
def stopChannels : Channels :=
  { leftDir := Level.LOW, leftDuty := 0, rightDir := Level.HIGH, rightDuty := 0 }

/-- Lines 42-88 of `loop`: the `switch (cmd)` over the action character.
`'+'` and `'-'` only print, leaving the channels unchanged; `'L'`, `'R'`,
`'W'`, `'S'` write the fixed direction pair with the computed duty on both
PWM pins; anything else stops the motors. -/
def applyCmd (cmd : Char) (duty : ℚ) (ch : Channels) : Channels :=
  if cmd = '+' then ch
  else if cmd = '-' then ch
  else if cmd = 'L' then
    { leftDir := Level.LOW, leftDuty := duty, rightDir := Level.LOW, rightDuty := duty }
  else if cmd = 'R' then
    { leftDir := Level.HIGH, leftDuty := duty, rightDir := Level.HIGH, rightDuty := duty }
  else if cmd = 'W' then
    { leftDir := Level.HIGH, leftDuty := duty, rightDir := Level.LOW, rightDuty := duty }
  else if cmd = 'S' then
    { leftDir := Level.LOW, leftDuty := duty, rightDir := Level.HIGH, rightDuty := duty }
  else stopChannels

/-- Line 40 of `loop`: `float motorSpeed = (BLE_Change_SPEED / 10.0) * 22.5`,
as an exact rational (22.5 = 45/2). -/
def dutyOf (speed : Int) : ℚ :=
  ((speed : ℚ) / 10) * (45 / 2)

/-- Lines 26-95 of `loop`: dispatch one complete frame.  A frame starting
with the sentinel `'%'` is parsed by `parseFrame` and then drives the
channels through the `switch`; any other frame stops the motors and
leaves the speed alone.  Returns the new target speed and the new channel
outputs. -/
def dispatch (s : List Char) (speed : Int) (ch : Channels) : Int × Channels :=
  if charAt s 0 = '%' then
    let pc := parseFrame s speed
    (pc.1, applyCmd pc.2 (dutyOf pc.1) ch)
  else
    (speed, stopChannels)

/-- Lines 21-99 of `loop`: one polling iteration after the drain loop
appended `incoming` to the buffer.  A non-empty buffer is dispatched and
then cleared (line 98); an empty buffer leaves the state alone. -/
def loopStep (st : CarState) (incoming : List Char) : CarState :=
  let buf := st.buffer ++ incoming
  if 0 < buf.length then
    let r := dispatch buf st.speed st.ch
    { buffer := [], speed := r.1, ch := r.2 }
  else
    { st with buffer := buf }

/-- Line 7 of `setup`: `BLE_Change_SPEED = 60;  // Default speed value`. -/
def setupSpeed : Int := 60

/-- The spec-side value of a digit string: the non-negative base-10
integer it denotes, folded most-significant digit first. -/
def digitsVal : List Char → Nat → Nat
  | [], acc => acc
  | c :: cs, acc => digitsVal cs (acc * 10 + (c.toNat - 48))

/-- The six recognized action characters of the `switch`. -/
def recognized : List Char := ['+', '-', 'L', 'R', 'W', 'S']

/-! ## Helper lemmas -/

lemma isDigit_toNat {c : Char} (h : isDigit c = true) : 48 ≤ c.toNat ∧ c.toNat ≤ 57 := by
  simp [isDigit, Char.le_def] at h
  exact ⟨h.1, h.2⟩

lemma isSpace_of_digit {c : Char} (h : isDigit c = true) : isSpace c = false := by
  rcases h' : isSpace c with _ | _
  · rfl
  · exfalso
    simp [isSpace] at h'
    rcases h' with ((((he | he) | he) | he) | he) | he <;>
      (subst he; exact absurd h (by decide))

lemma toInt_cons_digit {c : Char} (cs : List Char) (h : isDigit c = true) :
    toInt (c :: cs) = readDigits (c :: cs) 0 := by
  unfold toInt
  rw [List.dropWhile_cons, isSpace_of_digit h]
  simp only [Bool.false_eq_true, if_false]
  split
  · rename_i heq
    exact absurd h (by rw [List.cons.injEq] at heq; rw [heq.1]; decide)
  · rename_i heq
    exact absurd h (by rw [List.cons.injEq] at heq; rw [heq.1]; decide)
  · rfl

lemma readDigits_all_digits (ds : List Char) :
    ∀ acc : Nat, (∀ c ∈ ds, isDigit c = true) →
      readDigits ds (acc : Int) = (digitsVal ds acc : Int) := by
  induction ds with
  | nil => intro acc _; rfl
  | cons c cs ih =>
    intro acc hall
    have hc : isDigit c = true := hall c (List.mem_cons_self c cs)
    have h48 := (isDigit_toNat hc).1
    rw [readDigits, if_pos hc, digitsVal]
    have hcast : (acc : Int) * 10 + digitVal c = ((acc * 10 + (c.toNat - 48) : Nat) : Int) := by
      unfold digitVal; push_cast [h48]; ring
    rw [hcast]
    exact ih _ (fun c hm => hall c (List.mem_cons_of_mem _ hm))

lemma readDigits_takeWhile (ds : List Char) :
    ∀ acc : Int, readDigits ds acc = readDigits (ds.takeWhile isDigit) acc := by
  induction ds with
  | nil => intro acc; rfl
  | cons c cs ih =>
    intro acc
    rcases hc : isDigit c with _ | _
    · simp [List.takeWhile_cons, hc, readDigits]
    · simp only [List.takeWhile_cons, hc, if_true, readDigits]
      exact ih _

lemma toInt_all_digits (ds : List Char) (hne : ds ≠ [])
    (hall : ∀ c ∈ ds, isDigit c = true) :
    toInt ds = (digitsVal ds 0 : Int) := by
  rcases ds with _ | ⟨c, cs⟩
  · exact absurd rfl hne
  · rw [toInt_cons_digit cs (hall c (List.mem_cons_self c cs))]
    have h0 : (0 : Int) = ((0 : Nat) : Int) := rfl
    rw [h0, readDigits_all_digits _ _ hall]

lemma toInt_leading_digits {c : Char} (cs : List Char) (h : isDigit c = true) :
    toInt (c :: cs) = (digitsVal ((c :: cs).takeWhile isDigit) 0 : Int) := by
  rw [toInt_cons_digit cs h, readDigits_takeWhile]
  have h0 : (0 : Int) = ((0 : Nat) : Int) := rfl
  rw [h0, readDigits_all_digits _ _ (fun c hm => List.mem_takeWhile_imp hm)]

lemma substring_shape (a b : Char) (t : List Char) (h : t ≠ []) :
    substring (a :: b :: t) 1 ((a :: b :: t).length - 1) =
      b :: t.take (t.length - 1) := by
  rcases t with _ | ⟨c, t⟩
  · exact absurd rfl h
  · simp [substring, List.take_cons]

lemma applyCmd_plus (d : ℚ) (ch : Channels) : applyCmd '+' d ch = ch := rfl

lemma applyCmd_minus (d : ℚ) (ch : Channels) : applyCmd '-' d ch = ch := rfl

lemma applyCmd_L (d : ℚ) (ch : Channels) :
    applyCmd 'L' d ch =
      { leftDir := Level.LOW, leftDuty := d, rightDir := Level.LOW, rightDuty := d } := rfl

lemma applyCmd_R (d : ℚ) (ch : Channels) :
    applyCmd 'R' d ch =
      { leftDir := Level.HIGH, leftDuty := d, rightDir := Level.HIGH, rightDuty := d } := rfl

lemma applyCmd_W (d : ℚ) (ch : Channels) :
    applyCmd 'W' d ch =
      { leftDir := Level.HIGH, leftDuty := d, rightDir := Level.LOW, rightDuty := d } := rfl

lemma applyCmd_S (d : ℚ) (ch : Channels) :
    applyCmd 'S' d ch =
      { leftDir := Level.LOW, leftDuty := d, rightDir := Level.HIGH, rightDuty := d } := rfl

lemma applyCmd_not_recognized {cmd : Char} (d : ℚ) (ch : Channels)
    (h : cmd ∉ recognized) : applyCmd cmd d ch = stopChannels := by
  simp [recognized] at h
  obtain ⟨h1, h2, h3, h4, h5, h6⟩ := h
  simp [applyCmd, h1, h2, h3, h4, h5, h6]

lemma parseFrame_speed_bearing (s : List Char) (sp : Int)
    (hl : 2 < s.length) (hd : isDigit (charAt s 1) = true) :
    parseFrame s sp =
      (toInt (substring s 1 (s.length - 1)), charAt s (s.length - 1)) := by
  simp [parseFrame, hl, hd]

lemma parseFrame_bare (s : List Char) (sp : Int)
    (hb : ¬(2 < s.length ∧ isDigit (charAt s 1) = true)) :
    parseFrame s sp = (sp, charAt s 1) := by
  simp only [parseFrame, if_neg hb]

lemma dispatch_sentinel (s : List Char) (sp : Int) (ch : Channels)
    (h0 : charAt s 0 = '%') :
    dispatch s sp ch =
      ((parseFrame s sp).1,
        applyCmd (parseFrame s sp).2 (dutyOf (parseFrame s sp).1) ch) := by
  simp only [dispatch, if_pos h0]

lemma dispatch_no_sentinel (s : List Char) (sp : Int) (ch : Channels)
    (h0 : charAt s 0 ≠ '%') :
    dispatch s sp ch = (sp, stopChannels) := by
  simp only [dispatch, if_neg h0]

lemma parseFrame_stable (s : List Char) (sp : Int) :
    parseFrame s (parseFrame s sp).1 = parseFrame s sp := by
  by_cases h : 2 < s.length ∧ isDigit (charAt s 1) = true
  · simp [parseFrame, h]
  · simp only [parseFrame, if_neg h]

lemma applyCmd_idem (cmd : Char) (d : ℚ) (ch : Channels) :
    applyCmd cmd d (applyCmd cmd d ch) = applyCmd cmd d ch := by
  simp only [applyCmd]
  split_ifs <;> rfl

lemma substring_head_digit (s : List Char) (hl : 2 < s.length)
    (hd : isDigit (charAt s 1) = true) :
    ∃ rest, substring s 1 (s.length - 1) = charAt s 1 :: rest := by
  rcases s with _ | ⟨a, s⟩
  · simp at hl
  rcases s with _ | ⟨b, t⟩
  · simp at hl
  have ht : t ≠ [] := by
    intro he
    subst he
    simp at hl
  exact ⟨t.take (t.length - 1), by rw [substring_shape a b t ht]; rfl⟩

/-! ## The claims -/

/-- Claim C1: for every frame whose first character is `'%'`, whose length
exceeds 2, and whose character at index 1 is a decimal digit, `dispatch`
parses the substring from index 1 (inclusive) to the last character
(exclusive) with `toInt` and stores the result as the new target speed,
and takes the frame's final character as the action symbol; when that
substring consists of decimal digits, the stored value is exactly the
non-negative base-10 integer the digits denote. -/
theorem C1_speed_bearing_frame (s : List Char) (sp : Int) (ch : Channels)
    (h0 : charAt s 0 = '%') (hl : 2 < s.length)
    (hd : isDigit (charAt s 1) = true) :
    (dispatch s sp ch).1 = toInt (substring s 1 (s.length - 1)) ∧
    (parseFrame s sp).2 = charAt s (s.length - 1) ∧
    ((∀ c ∈ substring s 1 (s.length - 1), isDigit c = true) →
      toInt (substring s 1 (s.length - 1)) =
        (digitsVal (substring s 1 (s.length - 1)) 0 : Int)) := by
  rw [dispatch_sentinel s sp ch h0, parseFrame_speed_bearing s sp hl hd]
  refine ⟨rfl, rfl, fun hall => ?_⟩
  obtain ⟨rest, hrest⟩ := substring_head_digit s hl hd
  exact toInt_all_digits _ (by rw [hrest]; exact List.cons_ne_nil _ _) hall

/-- Witness for C1 at the frame `"%75W"` with prior speed 60: the parsed
speed is the value of `"75"` and the action symbol is `'W'`. -/
theorem C1_witness :
    ((dispatch ['%', '7', '5', 'W'] 60 stopChannels).1 =
        toInt (substring ['%', '7', '5', 'W'] 1 (['%', '7', '5', 'W'].length - 1)) ∧
      (parseFrame ['%', '7', '5', 'W'] 60).2 = charAt ['%', '7', '5', 'W'] 3 ∧
      ((∀ c ∈ substring ['%', '7', '5', 'W'] 1 (['%', '7', '5', 'W'].length - 1),
          isDigit c = true) →
        toInt (substring ['%', '7', '5', 'W'] 1 (['%', '7', '5', 'W'].length - 1)) =
          (digitsVal (substring ['%', '7', '5', 'W'] 1 (['%', '7', '5', 'W'].length - 1)) 0 : Int))) ∧
    (dispatch ['%', '7', '5', 'W'] 60 stopChannels).1 = 75 :=
  ⟨C1_speed_bearing_frame ['%', '7', '5', 'W'] 60 stopChannels
    (by decide) (by decide) (by decide), by decide⟩

/-- Claim C2: the dispatch of any frame follows the fixed action table:
`'L'` sets both direction pins LOW with the computed duty, `'R'` both
HIGH with the duty, `'W'` left HIGH / right LOW, `'S'` left LOW / right
HIGH, `'+'` and `'-'` leave the channels unchanged, any other action
symbol stops the motors, and any frame not starting with `'%'` stops the
motors. -/
theorem C2_action_table (s : List Char) (sp : Int) (ch : Channels) :
    (charAt s 0 = '%' →
      ((parseFrame s sp).2 = 'L' →
        (dispatch s sp ch).2 =
          { leftDir := Level.LOW, leftDuty := dutyOf (parseFrame s sp).1,
            rightDir := Level.LOW, rightDuty := dutyOf (parseFrame s sp).1 }) ∧
      ((parseFrame s sp).2 = 'R' →
        (dispatch s sp ch).2 =
          { leftDir := Level.HIGH, leftDuty := dutyOf (parseFrame s sp).1,
            rightDir := Level.HIGH, rightDuty := dutyOf (parseFrame s sp).1 }) ∧
      ((parseFrame s sp).2 = 'W' →
        (dispatch s sp ch).2 =
          { leftDir := Level.HIGH, leftDuty := dutyOf (parseFrame s sp).1,
            rightDir := Level.LOW, rightDuty := dutyOf (parseFrame s sp).1 }) ∧
      ((parseFrame s sp).2 = 'S' →
        (dispatch s sp ch).2 =
          { leftDir := Level.LOW, leftDuty := dutyOf (parseFrame s sp).1,
            rightDir := Level.HIGH, rightDuty := dutyOf (parseFrame s sp).1 }) ∧
      ((parseFrame s sp).2 = '+' ∨ (parseFrame s sp).2 = '-' →
        (dispatch s sp ch).2 = ch) ∧
      ((parseFrame s sp).2 ∉ recognized →
        (dispatch s sp ch).2 = stopChannels)) ∧
    (charAt s 0 ≠ '%' → (dispatch s sp ch).2 = stopChannels) := by
  constructor
  · intro h0
    rw [dispatch_sentinel s sp ch h0]
    refine ⟨fun hc => ?_, fun hc => ?_, fun hc => ?_, fun hc => ?_, fun hc => ?_, fun hc => ?_⟩
    · rw [hc, applyCmd_L]
    · rw [hc, applyCmd_R]
    · rw [hc, applyCmd_W]
    · rw [hc, applyCmd_S]
    · rcases hc with hc | hc
      · rw [hc, applyCmd_plus]
      · rw [hc, applyCmd_minus]
    · exact applyCmd_not_recognized _ _ hc
  · intro h0
    rw [dispatch_no_sentinel s sp ch h0]

/-- Witness for C2 at the frame `"R"` (no sentinel) and at `"%L"`:
the former stops the motors, the latter turns left. -/
theorem C2_witness :
    (dispatch ['R'] 60 stopChannels).2 = stopChannels ∧
    (dispatch ['%', 'L'] 60 stopChannels).2 =
      { leftDir := Level.LOW, leftDuty := dutyOf (parseFrame ['%', 'L'] 60).1,
        rightDir := Level.LOW, rightDuty := dutyOf (parseFrame ['%', 'L'] 60).1 } :=
  ⟨(C2_action_table ['R'] 60 stopChannels).2 (by decide),
    ((C2_action_table ['%', 'L'] 60 stopChannels).1 (by decide)).1 (by decide)⟩

/-- Claim C3: for every dispatched frame starting with `'%'`, the duty
magnitude handed to the motor channels is `(speed / 10) * 22.5` where
`speed` is the target speed after this frame's parsing step — the same
formula whether the frame updated the speed or reused the stored value;
in particular every motion action drives both PWM pins at exactly that
value. -/
theorem C3_duty_formula (s : List Char) (sp : Int) (ch : Channels)
    (h0 : charAt s 0 = '%') :
    (dispatch s sp ch).1 = (parseFrame s sp).1 ∧
    (dispatch s sp ch).2 =
      applyCmd (parseFrame s sp).2
        (((dispatch s sp ch).1 : ℚ) / 10 * (45 / 2)) ch ∧
    ((parseFrame s sp).2 ∈ (['L', 'R', 'W', 'S'] : List Char) →
      (dispatch s sp ch).2.leftDuty = ((dispatch s sp ch).1 : ℚ) / 10 * (45 / 2) ∧
      (dispatch s sp ch).2.rightDuty = ((dispatch s sp ch).1 : ℚ) / 10 * (45 / 2)) := by
  rw [dispatch_sentinel s sp ch h0]
  refine ⟨rfl, rfl, fun hm => ?_⟩
  simp only [List.mem_cons, List.not_mem_nil, or_false] at hm
  rcases hm with hc | hc | hc | hc <;>
    rw [hc] <;>
    simp [applyCmd_L, applyCmd_R, applyCmd_W, applyCmd_S, dutyOf]

/-- Witness for C3 at the bare frame `"%W"` with prior speed 60. -/
theorem C3_witness :
    (dispatch ['%', 'W'] 60 stopChannels).1 = (parseFrame ['%', 'W'] 60).1 ∧
    (dispatch ['%', 'W'] 60 stopChannels).2 =
      applyCmd (parseFrame ['%', 'W'] 60).2
        (((dispatch ['%', 'W'] 60 stopChannels).1 : ℚ) / 10 * (45 / 2)) stopChannels ∧
    ((parseFrame ['%', 'W'] 60).2 ∈ (['L', 'R', 'W', 'S'] : List Char) →
      (dispatch ['%', 'W'] 60 stopChannels).2.leftDuty =
        ((dispatch ['%', 'W'] 60 stopChannels).1 : ℚ) / 10 * (45 / 2) ∧
      (dispatch ['%', 'W'] 60 stopChannels).2.rightDuty =
        ((dispatch ['%', 'W'] 60 stopChannels).1 : ℚ) / 10 * (45 / 2)) :=
  C3_duty_formula ['%', 'W'] 60 stopChannels (by decide)

/-- Claim C4: every sentinel frame that is not speed-bearing (length at
most 2, or a non-digit at index 1) takes the character at index 1 as the
action symbol and leaves the target speed unchanged. -/
theorem C4_bare_frame (s : List Char) (sp : Int) (ch : Channels)
    (h0 : charAt s 0 = '%')
    (hb : ¬(2 < s.length ∧ isDigit (charAt s 1) = true)) :
    (parseFrame s sp).2 = charAt s 1 ∧ (dispatch s sp ch).1 = sp := by
  rw [dispatch_sentinel s sp ch h0, parseFrame_bare s sp hb]
  exact ⟨rfl, rfl⟩

/-- Witness for C4 at the frame `"%X"` with prior speed 60. -/
theorem C4_witness :
    (parseFrame ['%', 'X'] 60).2 = charAt ['%', 'X'] 1 ∧
    (dispatch ['%', 'X'] 60 stopChannels).1 = 60 :=
  C4_bare_frame ['%', 'X'] 60 stopChannels (by decide) (by decide)

/-- Counterexample to claim C5 as stated: the speed-bearing-shaped frame
`"%5x7W"` has a non-digit in its numeric substring, yet dispatch does not
fall back to the stop configuration — the left PWM output is non-zero
(the frame drives forward at the speed parsed from the leading digit). -/
theorem C5_counterexample :
    charAt ['%', '5', 'x', '7', 'W'] 0 = '%' ∧
    2 < (['%', '5', 'x', '7', 'W'] : List Char).length ∧
    isDigit (charAt ['%', '5', 'x', '7', 'W'] 1) = true ∧
    ¬(∀ c ∈ substring ['%', '5', 'x', '7', 'W'] 1
        ((['%', '5', 'x', '7', 'W'] : List Char).length - 1), isDigit c = true) ∧
    (dispatch ['%', '5', 'x', '7', 'W'] 60 stopChannels).2.leftDuty ≠ 0 := by
  refine ⟨by decide, by decide, by decide, by decide, ?_⟩
  have hp : parseFrame ['%', '5', 'x', '7', 'W'] 60 = (5, 'W') := by decide
  rw [dispatch_sentinel _ _ _ (by decide), hp]
  rw [applyCmd_W]
  norm_num [dutyOf]

/-- Claim C5 amended: for every frame of speed-bearing shape whose
numeric substring contains a non-digit character, dispatch is still
total (no crash): the target speed is set to the base-10 value of the
longest leading digit run of the substring, and the final character is
dispatched through the normal action table, so the stop configuration
arises only when that final character is unrecognized, not as a
parse-failure fallback. -/
theorem C5_malformed_numeric (s : List Char) (sp : Int) (ch : Channels)
    (h0 : charAt s 0 = '%') (hl : 2 < s.length)
    (hd : isDigit (charAt s 1) = true)
    (_hx : ¬(∀ c ∈ substring s 1 (s.length - 1), isDigit c = true)) :
    (dispatch s sp ch).1 =
      (digitsVal ((substring s 1 (s.length - 1)).takeWhile isDigit) 0 : Int) ∧
    (dispatch s sp ch).2 =
      applyCmd (charAt s (s.length - 1)) (dutyOf (dispatch s sp ch).1) ch := by
  rw [dispatch_sentinel s sp ch h0, parseFrame_speed_bearing s sp hl hd]
  obtain ⟨rest, hrest⟩ := substring_head_digit s hl hd
  constructor
  · rw [hrest]
    exact toInt_leading_digits rest hd
  · rfl

/-- Witness for C5 (amended) at the frame `"%5x7W"`: the speed becomes 5
(the leading digit run) and the final `'W'` drives forward. -/
theorem C5_witness :
    ((dispatch ['%', '5', 'x', '7', 'W'] 60 stopChannels).1 =
        (digitsVal ((substring ['%', '5', 'x', '7', 'W'] 1
          ((['%', '5', 'x', '7', 'W'] : List Char).length - 1)).takeWhile isDigit) 0 : Int) ∧
      (dispatch ['%', '5', 'x', '7', 'W'] 60 stopChannels).2 =
        applyCmd (charAt ['%', '5', 'x', '7', 'W'] 4)
          (dutyOf (dispatch ['%', '5', 'x', '7', 'W'] 60 stopChannels).1) stopChannels) ∧
    (dispatch ['%', '5', 'x', '7', 'W'] 60 stopChannels).1 = 5 :=
  ⟨C5_malformed_numeric ['%', '5', 'x', '7', 'W'] 60 stopChannels
    (by decide) (by decide) (by decide) (by decide), by decide⟩

/-- Claim C6: dispatching the same frame twice in a row, from any
starting target speed and channel outputs, produces identical channel
outputs on both dispatches. -/
theorem C6_idempotent (s : List Char) (sp : Int) (ch : Channels) :
    (dispatch s (dispatch s sp ch).1 (dispatch s sp ch).2).2 =
      (dispatch s sp ch).2 := by
  by_cases h0 : charAt s 0 = '%'
  · rw [dispatch_sentinel s sp ch h0]
    rw [dispatch_sentinel s _ _ h0]
    rw [parseFrame_stable]
    exact applyCmd_idem _ _ _
  · rw [dispatch_no_sentinel s sp ch h0, dispatch_no_sentinel s sp stopChannels h0]

/-- Claim C7: after every polling iteration in which the (appended)
command buffer was non-empty, the buffer is empty again — the frame was
dispatched and the buffer cleared on every path. -/
theorem C7_buffer_cleared (st : CarState) (incoming : List Char)
    (h : st.buffer ++ incoming ≠ []) :
    (loopStep st incoming).buffer = [] := by
  unfold loopStep
  rw [if_pos (List.length_pos.mpr h)]

/-- Witness for C7: a buffer holding `"%W"` with no new bytes is cleared
by the iteration that dispatches it. -/
theorem C7_witness :
    (loopStep ⟨['%', 'W'], 60, stopChannels⟩ []).buffer = [] :=
  C7_buffer_cleared ⟨['%', 'W'], 60, stopChannels⟩ [] (by decide)

/-- Claim C8: a speed-bearing-shaped frame whose final character is not a
recognized action still updates the target speed to the parsed value
while the motors get the stop configuration — the speed update is not
rolled back on an unrecognized action symbol. -/
theorem C8_unrecognized_action (s : List Char) (sp : Int) (ch : Channels)
    (h0 : charAt s 0 = '%') (hl : 2 < s.length)
    (hd : isDigit (charAt s 1) = true)
    (hc : charAt s (s.length - 1) ∉ recognized) :
    (dispatch s sp ch).1 = toInt (substring s 1 (s.length - 1)) ∧
    (dispatch s sp ch).2 = stopChannels := by
  rw [dispatch_sentinel s sp ch h0, parseFrame_speed_bearing s sp hl hd]
  exact ⟨rfl, applyCmd_not_recognized _ _ hc⟩

/-- Witness for C8 at the frame `"%55"`: the target speed becomes 5 (the
digits are `"5"`, the final `'5'` is the action symbol) and the motors
stop. -/
theorem C8_witness :
    ((dispatch ['%', '5', '5'] 60 stopChannels).1 =
        toInt (substring ['%', '5', '5'] 1 ((['%', '5', '5'] : List Char).length - 1)) ∧
      (dispatch ['%', '5', '5'] 60 stopChannels).2 = stopChannels) ∧
    (dispatch ['%', '5', '5'] 60 stopChannels).1 = 5 :=
  ⟨C8_unrecognized_action ['%', '5', '5'] 60 stopChannels
    (by decide) (by decide) (by decide) (by decide), by decide⟩

/-- Claim C9: dispatching the one-character frame `"%"` is total: the
action symbol read at index 1 of the length-1 buffer is the out-of-range
default NUL character, which is not a recognized action, so the frame
stops the motors and leaves the target speed unchanged. -/
theorem C9_lone_sentinel (sp : Int) (ch : Channels) :
    dispatch ['%'] sp ch = (sp, stopChannels) ∧
    charAt ['%'] 1 = Char.ofNat 0 ∧
    charAt ['%'] 1 ∉ recognized := by
  refine ⟨?_, by decide, by decide⟩
  rw [dispatch_sentinel ['%'] sp ch (by decide),
    parseFrame_bare ['%'] sp (by intro h; exact absurd h.1 (by decide))]
  show (sp, applyCmd (charAt ['%'] 1) (dutyOf sp) ch) = (sp, stopChannels)
  rw [applyCmd_not_recognized _ _ (by decide)]

/-- Claim C10: after `setup` the target speed is 60, so the bare motion
frame `"%W"` drives both channels at duty `(60 / 10) * 22.5 = 135`
without changing the speed. -/
theorem C10_default_speed (ch : Channels) :
    setupSpeed = 60 ∧
    (dispatch ['%', 'W'] setupSpeed ch).1 = 60 ∧
    (dispatch ['%', 'W'] setupSpeed ch).2 =
      { leftDir := Level.HIGH, leftDuty := 135,
        rightDir := Level.LOW, rightDuty := 135 } := by
  refine ⟨rfl, rfl, ?_⟩
  rw [dispatch_sentinel _ _ _ (by decide),
    parseFrame_bare _ _ (by intro h; exact absurd h.1 (by decide))]
  show applyCmd (charAt ['%', 'W'] 1) (dutyOf setupSpeed) ch = _
  have hc : charAt ['%', 'W'] 1 = 'W' := by decide
  rw [hc, applyCmd_W]
  have hd : dutyOf setupSpeed = 135 := by norm_num [dutyOf, setupSpeed]
  rw [hd]

/-- Witness for C10 at the empty prior channel state. -/
theorem C10_witness :
    (dispatch ['%', 'W'] setupSpeed stopChannels).2 =
      { leftDir := Level.HIGH, leftDuty := 135,
        rightDir := Level.LOW, rightDuty := 135 } :=
  (C10_default_speed stopChannels).2.2
